import Mathlib

/-!
Verification of the gatekeeping core of the fullstack-mcp server:
the `PolicyEngine` (src/services/PolicyEngine.ts), the `RateLimiter`
(src/services/RateLimiter.ts) and the `ExecutionController`
(src/controllers/ExecutionController.ts), shallowly embedded over
explicit state.  JavaScript strings are modelled as lists of characters,
`Map` objects as insertion-ordered association lists, `Date.now()` as an
explicit `now : Nat` parameter, and the nondeterministic subprocess
outcome as an oracle argument.
-/

/-- JavaScript strings, modelled as sequences of characters. -/
abbrev Str := List Char

/-- Embed a Lean string literal as a `Str`. -/
def strL (s : String) : Str := s.toList

/-- JavaScript `String.prototype.startsWith`: `isPrefixB p s` holds when
`s` begins with `p`. -/
def isPrefixB : Str → Str → Bool
  | [], _ => true
  | _ :: _, [] => false
  | a :: as, b :: bs => if a = b then isPrefixB as bs else false

/-- JavaScript `String.prototype.endsWith`: `jsEndsWith s p` holds when
`s` ends with `p`. -/
def jsEndsWith (s pat : Str) : Bool := isPrefixB pat.reverse s.reverse

/-- Substring containment, the semantics of testing a string against a
regular expression made of literal characters: `hasSub p s` holds when
`p` occurs contiguously inside `s`. -/
def hasSub (pat : Str) : Str → Bool
  | [] => isPrefixB pat []
  | c :: rest => isPrefixB pat (c :: rest) || hasSub pat rest

/-- JavaScript string comparison (`<` on strings): lexicographic on
character code units. -/
def strLt : Str → Str → Bool
  | [], [] => false
  | [], _ :: _ => true
  | _ :: _, [] => false
  | a :: as, b :: bs => if a < b then true else if b < a then false else strLt as bs

/-- Decimal digits to a number, most significant first. -/
def digitsToNat (s : Str) : Nat := s.foldl (fun acc c => acc * 10 + (c.toNat - 48)) 0

/-- The fragment of JavaScript `ToNumber` on strings exercised by this
code base: the empty string reads as `0`, a canonical decimal numeral as
its value, and anything else as NaN (`none`), for which every numeric
comparison is false. -/
def jsNumOfStr (s : Str) : Option Nat :=
  if s = [] then some 0
  else if s.all (fun c => c.isDigit) then some (digitsToNat s) else none

/-- Decimal rendering of a number, the JavaScript `ToString` of a
natural number (used where a numeric value flows into a string slot). -/
def natToStr (n : Nat) : Str := (Nat.repr n).toList

/-- JavaScript `Array.prototype.join(' ')`. -/
def joinSpace : List Str → Str
  | [] => []
  | [a] => a
  | a :: rest => a ++ ' ' :: joinSpace rest

/-! ## Data model (src/models/Policy.ts) -/

/-- `PolicyRule.action`: `'allow' | 'deny'`. -/
inductive RuleAction | allow | deny
deriving DecidableEq

/-- `PolicyRule.type`: `'fileAccess' | 'commandExecution' | 'networkAccess' | 'rateLimit'`. -/
inductive RuleType | fileAccess | commandExecution | networkAccess | rateLimit
deriving DecidableEq

/-- `PolicyCondition.type`: `'ipAddress' | 'sessionId' | 'timeRange' | 'rateLimit'`. -/
inductive CondType | ipAddress | sessionId | timeRange | rateLimit
deriving DecidableEq

/-- `PolicyCondition.operator`. -/
inductive CondOp
  | equals | notEquals | contains | startsWith | endsWith
  | greaterThan | lessThan | limit | window
deriving DecidableEq

/-- `PolicyCondition.value : string | number`. -/
inductive CondValue
  | str (s : Str)
  | num (n : Nat)
deriving DecidableEq

/-- `PolicyCondition`. -/
structure PolicyCondition where
  type : CondType
  operator : CondOp
  value : CondValue
deriving DecidableEq

/-- `PolicyRule`.  The optional `conditions` field is modelled as a
possibly-empty list: the source only ever length-checks it or searches
it with `?.find`, so `undefined` and `[]` are indistinguishable. -/
structure PolicyRule where
  id : Str
  type : RuleType
  action : RuleAction
  resource : Str
  conditions : List PolicyCondition
deriving DecidableEq

/-- `Policy`.  Timestamps are epoch milliseconds. -/
structure Policy where
  id : Str
  name : Str
  description : Str
  rules : List PolicyRule
  createdAt : Nat
  updatedAt : Nat
deriving DecidableEq

/-- `PolicyEvaluationContext`.  Note that `action` is declared as a plain
string in the source, not as the rule-type union. -/
structure PolicyEvaluationContext where
  sessionId : Str
  ipAddress : Str
  resource : Str
  action : Str
  timestamp : Nat
deriving DecidableEq

/-! ## JavaScript `Map` objects as insertion-ordered association lists -/

/-- `Map.prototype.get`. -/
def jsMapGet {α : Type} : List (Str × α) → Str → Option α
  | [], _ => none
  | (k, v) :: rest, key => if k = key then some v else jsMapGet rest key

/-- `Map.prototype.set`: replaces in place an existing key (keeping its
insertion position) and otherwise appends. -/
def jsMapSet {α : Type} : List (Str × α) → Str → α → List (Str × α)
  | [], key, v => [(key, v)]
  | (k, w) :: rest, key, v =>
      if k = key then (k, v) :: rest else (k, w) :: jsMapSet rest key v

/-- `Map.prototype.delete`. -/
def jsMapDel {α : Type} (m : List (Str × α)) (key : Str) : List (Str × α) :=
  m.filter (fun p => decide (p.1 ≠ key))

/-! ## RateLimiter (src/services/RateLimiter.ts) -/

/-- One entry of `requestCounts`: `{ count: number; resetTime: number }`. -/
structure RateLimitRecord where
  count : Nat
  resetTime : Nat
deriving DecidableEq

/-- The `requestCounts` map of a `RateLimiter` instance. -/
abbrev RLState := List (Str × RateLimitRecord)

/-- `private defaultLimit = 100`. -/
def RateLimiter.defaultLimit : Nat := 100

/-- `private defaultWindow = 60000`. -/
def RateLimiter.defaultWindow : Nat := 60000

/-- The identity key: `` `${context.sessionId}:${context.ipAddress}` ``. -/
def rlKey (ctx : PolicyEvaluationContext) : Str :=
  ctx.sessionId ++ strL ":" ++ ctx.ipAddress

/-- The body of `RateLimiter.isAllowed` after the key has been computed:
fresh or expired key records restart at count 1 and reset time
`now + windowMs`; an in-window record at or above the limit denies
without mutation; otherwise the count is incremented. -/
def RateLimiter.isAllowedKey (st : RLState) (key : Str) (now limit windowMs : Nat) :
    Bool × RLState :=
  match jsMapGet st key with
  | none => (true, jsMapSet st key ⟨1, now + windowMs⟩)
  | some record =>
      if now ≥ record.resetTime then
        (true, jsMapSet st key ⟨1, now + windowMs⟩)
      else if record.count ≥ limit then
        (false, st)
      else
        (true, jsMapSet st key ⟨record.count + 1, record.resetTime⟩)

/-- `RateLimiter.isAllowed(context, limit, windowMs)`. -/
def RateLimiter.isAllowed (st : RLState) (ctx : PolicyEvaluationContext)
    (now limit windowMs : Nat) : Bool × RLState :=
  RateLimiter.isAllowedKey st (rlKey ctx) now limit windowMs

/-- `RateLimiter.reset(context)`. -/
def RateLimiter.reset (st : RLState) (ctx : PolicyEvaluationContext) : RLState :=
  jsMapDel st (rlKey ctx)

/-! ## PolicyEngine (src/services/PolicyEngine.ts) -/

/-- `PolicyEngine.matchesResourcePattern(pattern, resource)`: the literal
`'*'` matches everything, exact equality matches, and a pattern ending in
`'*'` matches every resource starting with the pattern minus that star
(`pattern.slice(0, -1)`). -/
def PolicyEngine.matchesResourcePattern (pattern resource : Str) : Bool :=
  if pattern = strL "*" then true
  else if pattern = resource then true
  else if jsEndsWith pattern (strL "*") then isPrefixB pattern.dropLast resource
  else false

/-- `PolicyEngine.evaluateStringCondition(condition, value)`.  The source
casts `condition.value as string`; a number-typed value behaves per the
JavaScript operator semantics: strict equality with a string is false,
`includes`/`startsWith`/`endsWith` coerce the argument to its decimal
string, and relational operators compare numerically against the
`ToNumber` reading of the context value (false on NaN).  Operators
`limit` and `window` fall to the `default: return false` branch. -/
def PolicyEngine.evaluateStringCondition (c : PolicyCondition) (value : Str) : Bool :=
  match c.operator with
  | .equals =>
      match c.value with
      | .str s => decide (value = s)
      | .num _ => false
  | .notEquals =>
      match c.value with
      | .str s => decide (value ≠ s)
      | .num _ => true
  | .contains =>
      match c.value with
      | .str s => hasSub s value
      | .num n => hasSub (natToStr n) value
  | .startsWith =>
      match c.value with
      | .str s => isPrefixB s value
      | .num n => isPrefixB (natToStr n) value
  | .endsWith =>
      match c.value with
      | .str s => jsEndsWith value s
      | .num n => jsEndsWith value (natToStr n)
  | .greaterThan =>
      match c.value with
      | .str s => strLt s value
      | .num n =>
          match jsNumOfStr value with
          | some v => decide (v > n)
          | none => false
  | .lessThan =>
      match c.value with
      | .str s => strLt value s
      | .num n =>
          match jsNumOfStr value with
          | some v => decide (v < n)
          | none => false
  | .limit => false
  | .window => false

/-- `PolicyEngine.evaluateCondition(condition, context)`: `timeRange`
conditions are unimplemented and always true, `rateLimit` conditions are
consumed elsewhere and always true here. -/
def PolicyEngine.evaluateCondition (c : PolicyCondition)
    (ctx : PolicyEvaluationContext) : Bool :=
  match c.type with
  | .ipAddress => PolicyEngine.evaluateStringCondition c ctx.ipAddress
  | .sessionId => PolicyEngine.evaluateStringCondition c ctx.sessionId
  | .timeRange => true
  | .rateLimit => true

/-- `PolicyEngine.evaluateRule(rule, context)`: a rule whose type differs
from the context's `action` string is skipped, then the resource pattern
must match, then every condition must hold (an absent or empty condition
list holds vacuously). -/
def PolicyEngine.evaluateRule (rule : PolicyRule) (ctx : PolicyEvaluationContext) : Bool :=
  if rule.type = .fileAccess ∧ ctx.action ≠ strL "fileAccess" then false
  else if rule.type = .commandExecution ∧ ctx.action ≠ strL "commandExecution" then false
  else if rule.type = .networkAccess ∧ ctx.action ≠ strL "networkAccess" then false
  else if rule.type = .rateLimit ∧ ctx.action ≠ strL "rateLimit" then false
  else if ¬ (PolicyEngine.matchesResourcePattern rule.resource ctx.resource = true) then false
  else rule.conditions.all (fun c => PolicyEngine.evaluateCondition c ctx)

/-- The inner loop of `isRateLimited`'s scan: the first rule of the list
with `rule.type === 'rateLimit'` that matches the context. -/
def PolicyEngine.findRateRuleIn (ctx : PolicyEvaluationContext) :
    List PolicyRule → Option PolicyRule
  | [] => none
  | r :: rs =>
      if r.type = .rateLimit ∧ PolicyEngine.evaluateRule r ctx = true then some r
      else PolicyEngine.findRateRuleIn ctx rs

/-- The outer loop of `isRateLimited`'s scan, over policies in insertion
order. -/
def PolicyEngine.findRateRule (ctx : PolicyEvaluationContext) :
    List Policy → Option PolicyRule
  | [] => none
  | p :: ps =>
      match PolicyEngine.findRateRuleIn ctx p.rules with
      | some r => some r
      | none => PolicyEngine.findRateRule ctx ps

/-- `rule.conditions?.find(c => c.type === 'rateLimit' && c.operator === op)?.value`. -/
def PolicyEngine.rateCondValue (conds : List PolicyCondition) (op : CondOp) :
    Option CondValue :=
  (conds.find? (fun c => decide (c.type = .rateLimit ∧ c.operator = op))).map
    (fun c => c.value)

/-- `(... ?.value as number) || default`: the JavaScript `||` falls back
to the default when the condition is absent or its value is falsy (the
number 0 or the empty string).  A truthy string value flows through the
unchecked `as number` cast into numeric positions; its decimal reading
covers the canonical-numeral fragment of that coercion (claims about the
gate are settled on numeric or absent parameters). -/
def PolicyEngine.rateParamNat (v : Option CondValue) (d : Nat) : Nat :=
  match v with
  | none => d
  | some (.num n) => if n = 0 then d else n
  | some (.str s) => if s = [] then d else (jsNumOfStr s).getD d

/-- `PolicyEngine.isRateLimited(context)` (note the source's inverted
naming: `true` means the request is admitted).  Scans all policies for a
matching `rateLimit`-typed rule; if found, delegates to the rate limiter
with the rule's `limit`/`window` parameters (literal defaults 100 and
60000), otherwise with the rate limiter's own defaults. -/
def PolicyEngine.isRateLimited (ps : List Policy) (st : RLState)
    (ctx : PolicyEvaluationContext) (now : Nat) : Bool × RLState :=
  match PolicyEngine.findRateRule ctx ps with
  | some rule =>
      let limit := PolicyEngine.rateParamNat
        (PolicyEngine.rateCondValue rule.conditions .limit) 100
      let windowMs := PolicyEngine.rateParamNat
        (PolicyEngine.rateCondValue rule.conditions .window) 60000
      RateLimiter.isAllowed st ctx now limit windowMs
  | none =>
      RateLimiter.isAllowed st ctx now RateLimiter.defaultLimit RateLimiter.defaultWindow

/-- The inner loop of `isActionAllowed`'s main scan: the first rule of
the list that matches the context. -/
def PolicyEngine.firstMatchingRuleIn (ctx : PolicyEvaluationContext) :
    List PolicyRule → Option PolicyRule
  | [] => none
  | r :: rs =>
      if PolicyEngine.evaluateRule r ctx = true then some r
      else PolicyEngine.firstMatchingRuleIn ctx rs

/-- The outer loop of `isActionAllowed`'s main scan, over policies in
insertion order. -/
def PolicyEngine.firstMatchingRule (ctx : PolicyEvaluationContext) :
    List Policy → Option PolicyRule
  | [] => none
  | p :: ps =>
      match PolicyEngine.firstMatchingRuleIn ctx p.rules with
      | some r => some r
      | none => PolicyEngine.firstMatchingRule ctx ps

/-- `PolicyEngine.isActionAllowed(context)`: the rate-limit gate runs
first and short-circuits on denial; with no policies the default is
allow; otherwise the first matching rule's action decides, and no match
means deny. -/
def PolicyEngine.isActionAllowed (ps : List Policy) (st : RLState)
    (ctx : PolicyEvaluationContext) (now : Nat) : Bool × RLState :=
  let g := PolicyEngine.isRateLimited ps st ctx now
  if g.1 = false then (false, g.2)
  else if ps.isEmpty then (true, g.2)
  else
    match PolicyEngine.firstMatchingRule ctx ps with
    | some r => (decide (r.action = .allow), g.2)
    | none => (false, g.2)

/-- `PolicyEngine.addPolicy(policy)`: `Map.set` keyed by `policy.id`
(replacement keeps the original insertion position). -/
def PolicyEngine.addPolicy : List Policy → Policy → List Policy
  | [], p => [p]
  | q :: qs, p => if q.id = p.id then p :: qs else q :: PolicyEngine.addPolicy qs p

/-- `PolicyEngine.removePolicy(policyId)`. -/
def PolicyEngine.removePolicy (ps : List Policy) (policyId : Str) : List Policy :=
  ps.filter (fun p => decide (p.id ≠ policyId))

/-- `PolicyEngine.getPolicy(policyId)`. -/
def PolicyEngine.getPolicy (ps : List Policy) (policyId : Str) : Option Policy :=
  ps.find? (fun p => decide (p.id = policyId))

/-- `PolicyEngine.createDefaultPolicy()`; `new Date()` becomes the `now`
argument. -/
def PolicyEngine.createDefaultPolicy (now : Nat) : Policy :=
  ⟨strL "default-policy", strL "Default Development Policy",
   strL "Default policy for development environments",
   [⟨strL "allow-all-file-access", .fileAccess, .allow, strL "*", []⟩,
    ⟨strL "allow-all-command-execution", .commandExecution, .allow, strL "*", []⟩,
    ⟨strL "default-rate-limit", .rateLimit, .allow, strL "*",
     [⟨.rateLimit, .limit, .num 100⟩, ⟨.rateLimit, .window, .num 60000⟩]⟩],
   now, now⟩

/-- All rules of a policy list, policies in insertion order and rules in
declaration order. -/
def flatRules (ps : List Policy) : List PolicyRule := ps.flatMap (fun p => p.rules)

/-! ## ExecutionController (src/controllers/ExecutionController.ts) -/

/-- `ExecutionResult` (src/models): execution identifier, exit code and
the ordered log lines. -/
structure ExecutionResult where
  executionId : Str
  exitCode : Nat
  logs : List Str
deriving DecidableEq

/-- The mutable state of an `ExecutionController` instance: the
`executions` map, the policy set of its `PolicyEngine` and the request
counts of that engine's `RateLimiter`. -/
structure CtrlState where
  executions : List (Str × ExecutionResult)
  policies : List Policy
  rl : RLState
deriving DecidableEq

/-- The outcome of the raced `execPromise` call, external to the model:
either resolution (with the stringified result and the measured
execution time) or rejection (with the optional numeric `error.code`,
the message and the stack). -/
inductive ExecOutcome
  | success (resultRepr : Str) (execTime : Nat)
  | failure (code : Option Nat) (msg : Str) (stack : Str)
deriving DecidableEq

/-- The HTTP response of `runCommand`: 200 with the record, 400 with a
validation message, or 403. -/
inductive RunResponse
  | ok (r : ExecutionResult)
  | badRequest (msg : Str)
  | forbidden (msg : Str)
deriving DecidableEq

/-- The HTTP response of `getExecution`: 200 with the record, 403, or
404. -/
inductive LookupResponse
  | ok (r : ExecutionResult)
  | forbidden
  | notFound
deriving DecidableEq

/-- The HTTP response of `cancelExecution`: 200, 403, or 404. -/
inductive CancelResponse
  | success
  | forbidden
  | notFound
deriving DecidableEq

/-- The `dangerousPatterns` denylist of `isValidCommand`; every entry of
the source's regular-expression list is a literal substring. -/
def dangerousSubs : List Str :=
  [strL ";", strL "||", strL "&&", strL "$", strL "`",
   strL ">", strL "<", strL "(", strL "\x7b"]

/-- Whether a string matches any denylisted pattern. -/
def hasDangerous (s : Str) : Bool := dangerousSubs.any (fun p => hasSub p s)

/-- `ExecutionController.isValidCommand(command, args)`: the command and
every argument must be free of all denylisted substrings (the source's
early-return double loop folded into `any`/`all`). -/
def ExecutionController.isValidCommand (command : Str) (args : List Str) : Bool :=
  !hasDangerous command && args.all (fun a => !hasDangerous a)

/-- The rendered command line `` `${command} ${args.join(' ')}` `` (note
the unconditional space). -/
def renderCmd (command : Str) (args : List Str) : Str :=
  command ++ ' ' :: joinSpace args

/-- `error.code || 1`: the exit code recorded on the failure branch
(absent or zero codes become 1). -/
def jsCodeOr1 (code : Option Nat) : Nat :=
  match code with
  | none => 1
  | some n => if n = 0 then 1 else n

/-- The exit code `runCommandDirectly` records for an outcome. -/
def execExitCode (oc : ExecOutcome) : Nat :=
  match oc with
  | .success _ _ => 0
  | .failure code _ _ => jsCodeOr1 code

/-- The `ExecutionResult` built by `runCommandDirectly`: on success exit
code 0 with command line, execution time and stringified result in the
logs; on failure `error.code || 1` with command line, message and stack. -/
def mkDirectRecord (executionId command : Str) (args : List Str)
    (oc : ExecOutcome) : ExecutionResult :=
  match oc with
  | .success resultRepr execTime =>
      ⟨executionId, 0,
       [strL "Command: " ++ renderCmd command args,
        strL "Execution time: " ++ natToStr execTime ++ strL "ms",
        strL "Result: " ++ resultRepr]⟩
  | .failure code msg stack =>
      ⟨executionId, jsCodeOr1 code,
       [strL "Command: " ++ renderCmd command args,
        strL "Error: " ++ msg,
        strL "Stack: " ++ stack]⟩

/-- `ExecutionController.runCommandDirectly`: both the resolution and the
rejection of the raced subprocess store an `ExecutionResult` under the
execution identifier and answer HTTP 200 with it. -/
def ExecutionController.runCommandDirectly (st : CtrlState)
    (executionId command : Str) (args : List Str) (oc : ExecOutcome) :
    RunResponse × CtrlState :=
  let r := mkDirectRecord executionId command args oc
  (.ok r, ⟨jsMapSet st.executions executionId r, st.policies, st.rl⟩)

/-- The `PolicyEvaluationContext` built by the controller for an
operation on `resource` with `action = 'commandExecution'`. -/
def mkExecCtx (sessionId ipAddress resource : Str) (now : Nat) :
    PolicyEvaluationContext :=
  ⟨sessionId, ipAddress, resource, strL "commandExecution", now⟩

/-- `ExecutionController.runCommand` with the direct backend
(`MCP_USE_DOCKER` unset): an absent or empty command is rejected with
"Command is required" (400); a command or argument with a denylisted
substring is rejected with "Invalid command or arguments" (400); then the
policy engine is consulted (403 on denial) and the command dispatched.
The generated execution identifier (time plus random suffix) is the
`executionId` argument. -/
def ExecutionController.runCommand (st : CtrlState) (command : Str)
    (args : List Str) (sessionId ipAddress : Str) (now : Nat)
    (executionId : Str) (oc : ExecOutcome) : RunResponse × CtrlState :=
  if command = [] then (.badRequest (strL "Command is required"), st)
  else if ExecutionController.isValidCommand command args = false then
    (.badRequest (strL "Invalid command or arguments"), st)
  else
    let ctx := mkExecCtx sessionId ipAddress command now
    let g := PolicyEngine.isActionAllowed st.policies st.rl ctx now
    if g.1 = false then
      (.forbidden (strL "Access denied by policy"), ⟨st.executions, st.policies, g.2⟩)
    else
      ExecutionController.runCommandDirectly ⟨st.executions, st.policies, g.2⟩
        executionId command args oc

/-- `ExecutionController.getExecution`: policy gate (on the execution
identifier as resource), then a read-only lookup in the executions map. -/
def ExecutionController.getExecution (st : CtrlState)
    (executionId sessionId ipAddress : Str) (now : Nat) :
    LookupResponse × CtrlState :=
  let ctx := mkExecCtx sessionId ipAddress executionId now
  let g := PolicyEngine.isActionAllowed st.policies st.rl ctx now
  let st1 : CtrlState := ⟨st.executions, st.policies, g.2⟩
  if g.1 = false then (.forbidden, st1)
  else
    match jsMapGet st.executions executionId with
    | none => (.notFound, st1)
    | some r => (.ok r, st1)

/-- `ExecutionController.cancelExecution`: policy gate, then removal of
the record if present (200) and 404 otherwise. -/
def ExecutionController.cancelExecution (st : CtrlState)
    (executionId sessionId ipAddress : Str) (now : Nat) :
    CancelResponse × CtrlState :=
  let ctx := mkExecCtx sessionId ipAddress executionId now
  let g := PolicyEngine.isActionAllowed st.policies st.rl ctx now
  if g.1 = false then (.forbidden, ⟨st.executions, st.policies, g.2⟩)
  else
    match jsMapGet st.executions executionId with
    | some _ =>
        (.success, ⟨jsMapDel st.executions executionId, st.policies, g.2⟩)
    | none => (.notFound, ⟨st.executions, st.policies, g.2⟩)

/-! ## Iterated calls, for the sequencing properties -/

/-- The results of a sequence of `RateLimiter.isAllowed` calls for one
context at the given times, threading the limiter state. -/
def callSeq (st : RLState) (ctx : PolicyEvaluationContext)
    (limit windowMs : Nat) : List Nat → List Bool × RLState
  | [] => ([], st)
  | t :: ts =>
      let r := RateLimiter.isAllowed st ctx t limit windowMs
      let rest := callSeq r.2 ctx limit windowMs ts
      (r.1 :: rest.1, rest.2)

/-- `n` successive calls of `PolicyEngine.isActionAllowed` for one
context at one instant, threading the limiter state. -/
def repeatAllowed (ps : List Policy) (st : RLState)
    (ctx : PolicyEvaluationContext) (now : Nat) : Nat → List Bool × RLState
  | 0 => ([], st)
  | n + 1 =>
      let r := PolicyEngine.isActionAllowed ps st ctx now
      let rest := repeatAllowed ps r.2 ctx now n
      (r.1 :: rest.1, rest.2)

/-- `n` successive calls of `ExecutionController.getExecution` for one
identifier and caller at one instant, threading the controller state. -/
def repeatGet (st : CtrlState) (executionId sessionId ipAddress : Str)
    (now : Nat) : Nat → List LookupResponse × CtrlState
  | 0 => ([], st)
  | n + 1 =>
      let r := ExecutionController.getExecution st executionId sessionId ipAddress now
      let rest := repeatGet r.2 executionId sessionId ipAddress now n
      (r.1 :: rest.1, rest.2)

/-! ## Shared lemmas -/

/-- Looking up a key just set yields the stored value. -/
theorem jsMapGet_jsMapSet_self {α : Type} (m : List (Str × α)) (k : Str) (v : α) :
    jsMapGet (jsMapSet m k v) k = some v := by
  induction m with
  | nil => simp [jsMapSet, jsMapGet]
  | cons p rest ih =>
      obtain ⟨pk, pv⟩ := p
      by_cases h : pk = k
      · simp [jsMapSet, jsMapGet, h]
      · simp [jsMapSet, jsMapGet, h, ih]

/-- Looking up a key just deleted yields nothing. -/
theorem jsMapGet_jsMapDel_self {α : Type} (m : List (Str × α)) (k : Str) :
    jsMapGet (jsMapDel m k) k = none := by
  induction m with
  | nil => rfl
  | cons p rest ih =>
      by_cases h : p.1 = k
      · simpa [jsMapDel, List.filter_cons, h] using ih
      · simpa [jsMapDel, List.filter_cons, h, jsMapGet] using ih

/-- Every string has its own front part as a JavaScript prefix. -/
theorem isPrefixB_dropLast_self : ∀ l : Str, isPrefixB l.dropLast l = true
  | [] => rfl
  | [_] => rfl
  | a :: b :: t => by
      show isPrefixB (a :: (b :: t).dropLast) (a :: b :: t) = true
      simp [isPrefixB, isPrefixB_dropLast_self (b :: t)]

/-- If no rule of the list matches, the inner scan finds nothing. -/
theorem firstMatchingRuleIn_eq_none (ctx : PolicyEvaluationContext)
    (rs : List PolicyRule)
    (h : ∀ r ∈ rs, PolicyEngine.evaluateRule r ctx = false) :
    PolicyEngine.firstMatchingRuleIn ctx rs = none := by
  induction rs with
  | nil => rfl
  | cons r rest ih =>
      have hr : PolicyEngine.evaluateRule r ctx = false := h r (by simp)
      simp [PolicyEngine.firstMatchingRuleIn, hr]
      exact ih fun q hq => h q (by simp [hq])

/-- If no rule of any policy matches, the outer scan finds nothing. -/
theorem firstMatchingRule_eq_none (ctx : PolicyEvaluationContext)
    (ps : List Policy)
    (h : ∀ r ∈ flatRules ps, PolicyEngine.evaluateRule r ctx = false) :
    PolicyEngine.firstMatchingRule ctx ps = none := by
  induction ps with
  | nil => rfl
  | cons p rest ih =>
      have h1 : ∀ r ∈ p.rules, PolicyEngine.evaluateRule r ctx = false := by
        intro r hr
        exact h r (by simp [flatRules, hr])
      have h2 : PolicyEngine.firstMatchingRule ctx rest = none := by
        refine ih fun r hr => h r ?_
        simp only [flatRules, List.flatMap_cons, List.mem_append]
        exact Or.inr (by simpa [flatRules] using hr)
      simp [PolicyEngine.firstMatchingRule, firstMatchingRuleIn_eq_none ctx p.rules h1, h2]

/-- Threading a window of in-budget calls through the limiter: starting
from an in-window record with count `c`, the `i`-th further call is
admitted exactly when `c + i` is still below the limit. -/
theorem callSeq_loop (ctx : PolicyEvaluationContext) (N W t0 : Nat) :
    ∀ (ts : List Nat) (st : RLState) (c : Nat),
      (∀ t ∈ ts, t < t0 + W) →
      jsMapGet st (rlKey ctx) = some ⟨c, t0 + W⟩ →
      (callSeq st ctx N W ts).1 =
        (List.range ts.length).map (fun i => decide (c + i < N)) := by
  intro ts
  induction ts with
  | nil => intro st c _ _; rfl
  | cons t ts ih =>
      intro st c h1 h2
      have ht : t < t0 + W := h1 t (by simp)
      have hts : ∀ x ∈ ts, x < t0 + W := fun x hx => h1 x (by simp [hx])
      by_cases hc : c < N
      · have hcall : RateLimiter.isAllowed st ctx t N W =
            (true, jsMapSet st (rlKey ctx) ⟨c + 1, t0 + W⟩) := by
          unfold RateLimiter.isAllowed RateLimiter.isAllowedKey
          rw [h2]
          have hnotexp : ¬ t ≥ t0 + W := by omega
          have hnotlim : ¬ c ≥ N := by omega
          simp [hnotexp, hnotlim]
        have hget : jsMapGet (jsMapSet st (rlKey ctx) ⟨c + 1, t0 + W⟩) (rlKey ctx)
            = some ⟨c + 1, t0 + W⟩ := jsMapGet_jsMapSet_self _ _ _
        have htail := ih (jsMapSet st (rlKey ctx) ⟨c + 1, t0 + W⟩) (c + 1) hts hget
        simp only [callSeq, hcall, htail, List.length_cons, List.range_succ_eq_map,
          List.map_cons, List.map_map]
        congr 1
        · simp [hc]
        · refine List.map_congr_left fun i _ => ?_
          simp only [Function.comp]
          exact decide_eq_decide.mpr (by omega)
      · have hcall : RateLimiter.isAllowed st ctx t N W = (false, st) := by
          unfold RateLimiter.isAllowed RateLimiter.isAllowedKey
          rw [h2]
          have hnotexp : ¬ t ≥ t0 + W := by omega
          have hlim : c ≥ N := by omega
          simp [hnotexp, hlim]
        have htail := ih st c hts h2
        simp only [callSeq, hcall, htail, List.length_cons, List.range_succ_eq_map,
          List.map_cons, List.map_map]
        congr 1
        · simp [hc]
        · refine List.map_congr_left fun i _ => ?_
          simp only [Function.comp]
          exact decide_eq_decide.mpr (by omega)

/-- An argument list fails the denylist screen exactly when some
argument carries a denylisted substring. -/
theorem all_not_dangerous_eq_false (args : List Str) :
    args.all (fun a => !hasDangerous a) = false
      ↔ ∃ a ∈ args, hasDangerous a = true := by
  induction args with
  | nil => simp
  | cons a rest ih =>
      cases ha : hasDangerous a <;> simp [List.all_cons, ha, ih]

/-! ## Concrete fixtures -/

/-- A command-execution context from session "s" at address "i". -/
def ctxExecW : PolicyEvaluationContext :=
  ⟨strL "s", strL "i", strL "exec-1", strL "commandExecution", 0⟩

/-- A limiter state whose "s:i" budget is exhausted inside the window. -/
def stExhausted : RLState := [(strL "s:i", ⟨100, 1000⟩)]

/-- A policy whose only rule concerns file access. -/
def polFileOnly : Policy :=
  ⟨strL "p1", strL "n", strL "d",
   [⟨strL "r1", .fileAccess, .allow, strL "*", []⟩], 0, 0⟩

/-- An earlier deny rule on the wildcard resource. -/
def ruleDenyW : PolicyRule := ⟨strL "rd", .fileAccess, .deny, strL "*", []⟩

/-- A later allow rule on the same wildcard resource. -/
def ruleAllowW : PolicyRule := ⟨strL "ra", .fileAccess, .allow, strL "*", []⟩

/-- A policy declaring the deny rule before the allow rule. -/
def polOrderW : Policy := ⟨strL "po", strL "n", strL "d", [ruleDenyW, ruleAllowW], 0, 0⟩

/-- A file-access context. -/
def ctxFileW : PolicyEvaluationContext :=
  ⟨strL "s", strL "i", strL "f.ts", strL "fileAccess", 0⟩

/-- A controller with no policies, no executions, fresh limiter. -/
def ctrlEmptyW : CtrlState := ⟨[], [], []⟩

/-- The parameter extraction as claim C6 words it: the value of the
`rateLimit`-typed `limit`/`window` condition whenever present, the
default only when the condition is absent. -/
def claimRateParam (v : Option CondValue) (d : Nat) : Nat :=
  match v with
  | none => d
  | some (.num n) => n
  | some (.str _) => d

/-- The parameter extraction as the amended claim C6 words it, per
parameter: the condition's numeric value when present and nonzero, the
default when the condition is absent or its value is the falsy 0.  The
string branch is never exercised under the numeric-or-absent hypotheses
of the theorems that mention it. -/
def amendedRateParam (v : Option CondValue) (d : Nat) : Nat :=
  match v with
  | none => d
  | some (.num n) => if n = 0 then d else n
  | some (.str _) => d

/-- Whether an extracted condition value is numeric or absent — the
fragment on which the gate's parameter flow avoids JavaScript's string
coercions. -/
def isNumericOrAbsent : Option CondValue → Bool
  | none => true
  | some (.num _) => true
  | some (.str _) => false

/-- A rateLimit rule carrying a limit condition with value 0. -/
def ruleZeroW : PolicyRule :=
  ⟨strL "rz", .rateLimit, .allow, strL "*", [⟨.rateLimit, .limit, .num 0⟩]⟩

/-- A policy carrying only `ruleZeroW`. -/
def polZeroW : Policy := ⟨strL "pz", strL "n", strL "d", [ruleZeroW], 0, 0⟩

/-- A rate-limit context from session "s" at address "i". -/
def ctxRateW : PolicyEvaluationContext :=
  ⟨strL "s", strL "i", strL "x", strL "rateLimit", 0⟩

/-- A limiter state whose "s:i" budget is half used inside the window. -/
def stHalfW : RLState := [(strL "s:i", ⟨50, 1000⟩)]

/-- A rateLimit rule carrying limit 7 and window 8. -/
def ruleSevenW : PolicyRule :=
  ⟨strL "rs", .rateLimit, .allow, strL "*",
   [⟨.rateLimit, .limit, .num 7⟩, ⟨.rateLimit, .window, .num 8⟩]⟩

/-- A policy carrying only `ruleSevenW`. -/
def polSevenW : Policy := ⟨strL "ps", strL "n", strL "d", [ruleSevenW], 0, 0⟩

/-- A controller state holding the default development policy. -/
def ctrlDefW : CtrlState := ⟨[], [PolicyEngine.createDefaultPolicy 0], []⟩

/-- A stored record for execution "exec-1". -/
def rec9W : ExecutionResult := ⟨strL "exec-1", 0, [strL "Command: echo hello"]⟩

/-- A controller holding that one completed execution under the default
development policy, with a fresh limiter. -/
def st9W : CtrlState :=
  ⟨[(strL "exec-1", rec9W)], [PolicyEngine.createDefaultPolicy 0], []⟩

/-- A context whose identity key "a:b:c" comes from session "a" at
address "b:c". -/
def ctx10a : PolicyEvaluationContext :=
  ⟨strL "a", strL "b:c", strL "r", strL "x", 0⟩

/-- A context whose identity key "a:b:c" comes instead from session
"a:b" at address "c". -/
def ctx10b : PolicyEvaluationContext :=
  ⟨strL "a:b", strL "c", strL "r", strL "x", 0⟩

/-! ## Claim C1 -/

/-- Claim C1: for every policy set, limiter state and context, if the
rate-limit gate — the RateLimiter verdict with the parameters the gate
selects — reports the identity over budget, `isActionAllowed` returns
false with exactly the gate's post-state: the rate check precedes and
short-circuits all policy rule evaluation. -/
theorem rate_denial_short_circuits (ps : List Policy) (st : RLState)
    (ctx : PolicyEvaluationContext) (now : Nat)
    (h : (PolicyEngine.isRateLimited ps st ctx now).1 = false) :
    PolicyEngine.isActionAllowed ps st ctx now
      = (false, (PolicyEngine.isRateLimited ps st ctx now).2) := by
  unfold PolicyEngine.isActionAllowed
  simp [h]

/-- Claim C1, witness: an exhausted budget denies even with zero
policies. -/
theorem rate_denial_short_circuits_witness :
    (PolicyEngine.isRateLimited [] stExhausted ctxExecW 0).1 = false
    ∧ PolicyEngine.isActionAllowed [] stExhausted ctxExecW 0
        = (false, (PolicyEngine.isRateLimited [] stExhausted ctxExecW 0).2) :=
  ⟨by decide, rate_denial_short_circuits [] stExhausted ctxExecW 0 (by decide)⟩

/-! ## Claim C2 -/

set_option maxRecDepth 20000 in
/-- Claim C2, counterexample to the claim as stated: with zero policies
registered `isActionAllowed` does not return true for every context —
starting from a fresh limiter, of 101 identical requests at one instant
the first 100 are allowed and the 101st is denied by the default rate
gate, which runs even when no policies exist. -/
theorem zero_policy_allow_counterexample :
    (repeatAllowed [] [] ctxExecW 0 101).1
      = List.replicate 100 true ++ [false] := by decide

/-- Claim C2 (amended: with zero policies the request is allowed
whenever the rate-limit gate admits it; and once at least one policy is
registered, a context matched by no rule is denied — unconditionally,
since both the rate-gate branch and the no-match branch deny). -/
theorem zero_policy_bootstrap_amended (ps : List Policy) (st : RLState)
    (ctx : PolicyEvaluationContext) (now : Nat) :
    ((PolicyEngine.isRateLimited [] st ctx now).1 = true →
      (PolicyEngine.isActionAllowed [] st ctx now).1 = true)
    ∧ (ps ≠ [] →
      (∀ r ∈ flatRules ps, PolicyEngine.evaluateRule r ctx = false) →
      (PolicyEngine.isActionAllowed ps st ctx now).1 = false) := by
  constructor
  · intro h
    unfold PolicyEngine.isActionAllowed
    simp [h]
  · intro hps hall
    unfold PolicyEngine.isActionAllowed
    by_cases hg : (PolicyEngine.isRateLimited ps st ctx now).1 = false
    · simp [hg]
    · have hE : ps.isEmpty = false := by
        cases ps with
        | nil => exact absurd rfl hps
        | cons p rest => rfl
      simp [hg, hE, firstMatchingRule_eq_none ctx ps hall]

/-- Claim C2, witness: an empty engine admits a fresh request; an engine
with only a file-access rule denies a command-execution request. -/
theorem zero_policy_bootstrap_amended_witness :
    (PolicyEngine.isActionAllowed [] [] ctxExecW 0).1 = true
    ∧ (PolicyEngine.isActionAllowed [polFileOnly] [] ctxExecW 0).1 = false :=
  ⟨(zero_policy_bootstrap_amended [] [] ctxExecW 0).1 (by decide),
   (zero_policy_bootstrap_amended [polFileOnly] [] ctxExecW 0).2 (by decide) (by decide)⟩

/-! ## Claim C3 -/

/-- Claim C3: when the rate gate admits the request, `isActionAllowed`
returns the action of the first matching rule — policies scanned in
insertion order and rules in declaration order — so of two matching
rules on the same resource with different actions, the earlier one
decides. -/
theorem first_match_wins (ps : List Policy) (st : RLState)
    (ctx : PolicyEvaluationContext) (now : Nat) (r : PolicyRule)
    (hg : (PolicyEngine.isRateLimited ps st ctx now).1 = true)
    (hf : PolicyEngine.firstMatchingRule ctx ps = some r) :
    (PolicyEngine.isActionAllowed ps st ctx now).1
      = decide (r.action = RuleAction.allow) := by
  unfold PolicyEngine.isActionAllowed
  cases ps with
  | nil => simp [PolicyEngine.firstMatchingRule] at hf
  | cons p rest => simp [hg, hf]

/-- Claim C3, witness: a deny rule declared before an allow rule on the
same wildcard resource makes the request denied. -/
theorem first_match_wins_witness :
    (PolicyEngine.isActionAllowed [polOrderW] [] ctxFileW 0).1
      = decide (ruleDenyW.action = RuleAction.allow) :=
  first_match_wins [polOrderW] [] ctxFileW 0 ruleDenyW (by decide) (by decide)

/-! ## Claim C4 -/

/-- Claim C4, counterexample to the claim as stated: with limit `N = 0`
the claimed consequence — only the first `N` calls of a window are
admitted and the `(N+1)`-th is denied — fails: the first call is
admitted anyway, because the fresh-record branch precedes the limit
check. -/
theorem rate_limiter_zero_limit_counterexample :
    (RateLimiter.isAllowed [] ctxExecW 0 0 60000).1 = true := by decide

/-- Claim C4 (amended: the window-counting consequence holds for limits
`N ≥ 1`): the four branches of `RateLimiter.isAllowed` behave as
described — fresh record on a missing or expired key, denial without
mutation at the limit, increment below it — and, starting from a key
with no record, a window of calls admits exactly the first `N`. -/
theorem rate_limiter_fixed_window_amended (ctx : PolicyEvaluationContext)
    (st : RLState) (now N W t0 : Nat) (ts : List Nat) :
    (jsMapGet st (rlKey ctx) = none →
      RateLimiter.isAllowed st ctx now N W
        = (true, jsMapSet st (rlKey ctx) ⟨1, now + W⟩))
    ∧ (∀ r, jsMapGet st (rlKey ctx) = some r → now ≥ r.resetTime →
      RateLimiter.isAllowed st ctx now N W
        = (true, jsMapSet st (rlKey ctx) ⟨1, now + W⟩))
    ∧ (∀ r, jsMapGet st (rlKey ctx) = some r → now < r.resetTime → r.count ≥ N →
      RateLimiter.isAllowed st ctx now N W = (false, st))
    ∧ (∀ r, jsMapGet st (rlKey ctx) = some r → now < r.resetTime → r.count < N →
      RateLimiter.isAllowed st ctx now N W
        = (true, jsMapSet st (rlKey ctx) ⟨r.count + 1, r.resetTime⟩))
    ∧ (jsMapGet st (rlKey ctx) = none → 1 ≤ N → (∀ t ∈ ts, t < t0 + W) →
      (callSeq st ctx N W (t0 :: ts)).1
        = (List.range (ts.length + 1)).map (fun i => decide (i < N))) := by
  refine ⟨?_, ?_, ?_, ?_, ?_⟩
  · intro h
    unfold RateLimiter.isAllowed RateLimiter.isAllowedKey
    rw [h]
  · intro r h hexp
    unfold RateLimiter.isAllowed RateLimiter.isAllowedKey
    rw [h]
    simp [hexp]
  · intro r h hin hlim
    unfold RateLimiter.isAllowed RateLimiter.isAllowedKey
    rw [h]
    have hne : ¬ now ≥ r.resetTime := by omega
    simp [hne, hlim]
  · intro r h hin hlt
    unfold RateLimiter.isAllowed RateLimiter.isAllowedKey
    rw [h]
    have hne : ¬ now ≥ r.resetTime := by omega
    have hnl : ¬ r.count ≥ N := by omega
    simp [hne, hnl]
  · intro h hN hts
    have hcall : RateLimiter.isAllowed st ctx t0 N W
        = (true, jsMapSet st (rlKey ctx) ⟨1, t0 + W⟩) := by
      unfold RateLimiter.isAllowed RateLimiter.isAllowedKey
      rw [h]
    have hget : jsMapGet (jsMapSet st (rlKey ctx) ⟨1, t0 + W⟩) (rlKey ctx)
        = some ⟨1, t0 + W⟩ := jsMapGet_jsMapSet_self _ _ _
    have htail := callSeq_loop ctx N W t0 ts _ 1 hts hget
    simp only [callSeq, hcall, htail, List.range_succ_eq_map, List.map_cons,
      List.map_map]
    congr 1
    · have h0 : 0 < N := hN
      simp [h0]
    · refine List.map_congr_left fun i _ => ?_
      simp only [Function.comp]
      exact decide_eq_decide.mpr (by omega)

/-- Claim C4, witness: with limit 2 from a fresh key, three calls inside
one window are admitted, admitted, denied. -/
theorem rate_limiter_fixed_window_amended_witness :
    RateLimiter.isAllowed [] ctxExecW 0 2 60000
      = (true, jsMapSet [] (rlKey ctxExecW) ⟨1, 60000⟩)
    ∧ (callSeq [] ctxExecW 2 60000 [0, 1, 2]).1 = [true, true, false] := by
  have h := rate_limiter_fixed_window_amended ctxExecW [] 0 2 60000 0 [1, 2]
  refine ⟨h.1 (by decide), ?_⟩
  have h5 := h.2.2.2.2 (by decide) (by decide) (by decide)
  rw [h5]
  decide

/-! ## Claim C5 -/

/-- Claim C5, counterexample to the claim as stated: the empty command
string contains none of the denylisted substrings, yet it does not pass
validation and never reaches authorization — the `!command` guard
rejects it first with "Command is required". -/
theorem empty_command_counterexample :
    ExecutionController.isValidCommand [] [] = true
    ∧ ExecutionController.runCommand ctrlEmptyW [] [] (strL "s") (strL "i") 0
        (strL "exec-1") (.success [] 0)
      = (.badRequest (strL "Command is required"), ctrlEmptyW) := by decide

/-- Claim C5 (amended: restricted to nonempty commands, the empty
command being rejected earlier with "Command is required"): a request
whose command or any argument contains a denylisted substring is
rejected with the 400 response "Invalid command or arguments", with the
whole state untouched — so before any policy or rate-limit evaluation
and before any subprocess outcome is consulted; a request free of the
substrings passes validation and proceeds to the authorization gate.
The denylist is exactly the substrings of `dangerousSubs`. -/
theorem command_denylist_amended (st : CtrlState) (command : Str)
    (args : List Str) (sessionId ipAddress : Str) (now : Nat)
    (executionId : Str) (oc : ExecOutcome) (h : command ≠ []) :
    (ExecutionController.isValidCommand command args = false →
      ExecutionController.runCommand st command args sessionId ipAddress now
        executionId oc
        = (.badRequest (strL "Invalid command or arguments"), st))
    ∧ (ExecutionController.isValidCommand command args = true →
      ExecutionController.runCommand st command args sessionId ipAddress now
        executionId oc
        = (let g := PolicyEngine.isActionAllowed st.policies st.rl
              (mkExecCtx sessionId ipAddress command now) now
           if g.1 = false then
             (.forbidden (strL "Access denied by policy"),
              ⟨st.executions, st.policies, g.2⟩)
           else ExecutionController.runCommandDirectly
             ⟨st.executions, st.policies, g.2⟩ executionId command args oc))
    ∧ (ExecutionController.isValidCommand command args = false ↔
        (hasDangerous command = true ∨ ∃ a ∈ args, hasDangerous a = true)) := by
  refine ⟨?_, ?_, ?_⟩
  · intro hv
    unfold ExecutionController.runCommand
    simp [h, hv]
  · intro hv
    unfold ExecutionController.runCommand
    simp [h, hv]
  · unfold ExecutionController.isValidCommand
    cases hc : hasDangerous command <;>
      simp [hc, all_not_dangerous_eq_false]

/-- Claim C5, witness: a command with a denylisted `;` is rejected with
"Invalid command or arguments" and the state unchanged. -/
theorem command_denylist_amended_witness :
    ExecutionController.runCommand ctrlEmptyW (strL "echo; rm -rf /") []
      (strL "s") (strL "i") 0 (strL "exec-1") (.success [] 0)
      = (.badRequest (strL "Invalid command or arguments"), ctrlEmptyW) :=
  (command_denylist_amended ctrlEmptyW (strL "echo; rm -rf /") [] (strL "s")
    (strL "i") 0 (strL "exec-1") (.success [] 0) (by decide)).1 (by decide)

/-! ## Claim C6 -/

/-- Claim C6, counterexample to the claim as stated: a matching rateLimit
rule whose limit condition carries the value 0 does not parameterize the
RateLimiter with that extracted value — the JavaScript `|| 100` treats
the falsy 0 like an absent condition, so the gate admits a request the
claimed extraction would deny. -/
theorem rate_gate_falsy_param_counterexample :
    PolicyEngine.findRateRule ctxRateW [polZeroW] = some ruleZeroW
    ∧ PolicyEngine.isRateLimited [polZeroW] stHalfW ctxRateW 0
        ≠ RateLimiter.isAllowed stHalfW ctxRateW 0
            (claimRateParam
              (PolicyEngine.rateCondValue ruleZeroW.conditions .limit) 100)
            (claimRateParam
              (PolicyEngine.rateCondValue ruleZeroW.conditions .window) 60000) := by
  decide

/-- On numeric-or-absent values, the code's extraction coincides with
the amended claim's per-parameter extraction. -/
theorem rateParamNat_eq_amended (v : Option CondValue) (d : Nat)
    (h : isNumericOrAbsent v = true) :
    PolicyEngine.rateParamNat v d = amendedRateParam v d := by
  match v with
  | none => rfl
  | some (.num n) => rfl
  | some (.str q) => simp [isNumericOrAbsent] at h

/-- Claim C6 (amended: each of the two parameters independently defaults
— to 100 requests and 60000 ms respectively — when its condition is
absent or when its value is the falsy 0): when the scan finds a matching
rateLimit rule whose limit/window condition values are numeric or
absent, the RateLimiter is invoked with exactly the per-parameter
extraction of that rule's rateLimit-typed conditions, mixed
configurations included; with no matching rule it is invoked with the
system defaults. -/
theorem rate_gate_params_amended (ps : List Policy) (st : RLState)
    (ctx : PolicyEvaluationContext) (now : Nat) (rule : PolicyRule) :
    (PolicyEngine.findRateRule ctx ps = some rule →
      isNumericOrAbsent (PolicyEngine.rateCondValue rule.conditions .limit) = true →
      isNumericOrAbsent (PolicyEngine.rateCondValue rule.conditions .window) = true →
      PolicyEngine.isRateLimited ps st ctx now
        = RateLimiter.isAllowed st ctx now
            (amendedRateParam
              (PolicyEngine.rateCondValue rule.conditions .limit) 100)
            (amendedRateParam
              (PolicyEngine.rateCondValue rule.conditions .window) 60000))
    ∧ (PolicyEngine.findRateRule ctx ps = none →
      PolicyEngine.isRateLimited ps st ctx now
        = RateLimiter.isAllowed st ctx now
            RateLimiter.defaultLimit RateLimiter.defaultWindow) := by
  constructor
  · intro hf hl hw
    unfold PolicyEngine.isRateLimited
    rw [hf]
    simp only [rateParamNat_eq_amended _ _ hl, rateParamNat_eq_amended _ _ hw]
  · intro hf
    unfold PolicyEngine.isRateLimited
    rw [hf]

/-- Claim C6, witness: a rule with limit 7 and window 8 reaches the
RateLimiter with exactly those; the mixed rule with a present-but-0
limit and an absent window — the configuration of the counterexample —
reaches it with both defaults; with no matching rule the system defaults
are used. -/
theorem rate_gate_params_amended_witness :
    PolicyEngine.isRateLimited [polSevenW] [] ctxRateW 0
      = RateLimiter.isAllowed [] ctxRateW 0 7 8
    ∧ PolicyEngine.isRateLimited [polZeroW] stHalfW ctxRateW 0
      = RateLimiter.isAllowed stHalfW ctxRateW 0 100 60000
    ∧ PolicyEngine.isRateLimited [] [] ctxRateW 0
      = RateLimiter.isAllowed [] ctxRateW 0
          RateLimiter.defaultLimit RateLimiter.defaultWindow := by
  refine ⟨?_, ?_, ?_⟩
  · have h := (rate_gate_params_amended [polSevenW] [] ctxRateW 0 ruleSevenW).1
      (by decide) (by decide) (by decide)
    rw [h]
    decide
  · have h := (rate_gate_params_amended [polZeroW] stHalfW ctxRateW 0 ruleZeroW).1
      (by decide) (by decide) (by decide)
    rw [h]
    decide
  · exact (rate_gate_params_amended [] [] ctxRateW 0 ruleZeroW).2 (by decide)

/-! ## Claim C7 -/

/-- Claim C7: resource pattern semantics of the engine — the pattern
`"*"` matches every resource including the empty one; a pattern ending
in `"*"` matches exactly the resources that start with the pattern minus
that final star; any other pattern matches exactly the resource equal to
it, no further wildcard or regex syntax being honored. -/
theorem resource_pattern_semantics (pattern resource : Str) :
    PolicyEngine.matchesResourcePattern pattern resource = true ↔
      (pattern = strL "*"
       ∨ (jsEndsWith pattern (strL "*") = true
          ∧ isPrefixB pattern.dropLast resource = true)
       ∨ (jsEndsWith pattern (strL "*") = false ∧ resource = pattern)) := by
  unfold PolicyEngine.matchesResourcePattern
  by_cases h1 : pattern = strL "*"
  · simp [h1]
  · by_cases h3 : jsEndsWith pattern (strL "*") = true
    · by_cases h2 : pattern = resource
      · subst h2
        simp [h1, h3, isPrefixB_dropLast_self]
      · simp [h1, h2, h3]
    · by_cases h2 : pattern = resource
      · subst h2
        simp [h1, h3, Bool.not_eq_true]
      · have h2s : ¬ resource = pattern := fun hh => h2 hh.symm
        simp [h1, h2, h3, h2s, Bool.not_eq_true]

/-! ## Claim C8 -/

/-- Claim C8: an execution that passes validation and authorization
never surfaces subprocess failure or timeout as a thrown error — for
every outcome of the raced subprocess, success and failure alike, the
direct backend stores an `ExecutionRecord` under the fresh execution
identifier, whose log sequence opens with the rendered command line and
whose `exitCode` reflects the outcome, and answers it as a normal 200
result. -/
theorem execution_failure_as_data (st : CtrlState) (command : Str)
    (args : List Str) (sessionId ipAddress : Str) (now : Nat)
    (executionId : Str) (oc : ExecOutcome)
    (h1 : command ≠ [])
    (h2 : ExecutionController.isValidCommand command args = true)
    (h3 : (PolicyEngine.isActionAllowed st.policies st.rl
            (mkExecCtx sessionId ipAddress command now) now).1 = true) :
    ExecutionController.runCommand st command args sessionId ipAddress now
        executionId oc
      = (RunResponse.ok (mkDirectRecord executionId command args oc),
         ⟨jsMapSet st.executions executionId
            (mkDirectRecord executionId command args oc),
          st.policies,
          (PolicyEngine.isActionAllowed st.policies st.rl
            (mkExecCtx sessionId ipAddress command now) now).2⟩)
    ∧ (mkDirectRecord executionId command args oc).executionId = executionId
    ∧ (mkDirectRecord executionId command args oc).exitCode = execExitCode oc
    ∧ (mkDirectRecord executionId command args oc).logs.head?
        = some (strL "Command: " ++ renderCmd command args) := by
  refine ⟨?_, ?_, ?_, ?_⟩
  · unfold ExecutionController.runCommand ExecutionController.runCommandDirectly
    simp [h1, h2, h3]
  · cases oc <;> rfl
  · cases oc <;> rfl
  · cases oc <;> rfl

/-- Claim C8, witness: under the default policy, a timed-out "echo
hello" is answered 200 with the failure captured in the stored record. -/
theorem execution_failure_as_data_witness :
    (ExecutionController.runCommand ctrlDefW (strL "echo") [strL "hello"]
      (strL "s") (strL "i") 0 (strL "exec-1")
      (ExecOutcome.failure none (strL "Command timeout") (strL "st"))).1
      = RunResponse.ok (mkDirectRecord (strL "exec-1") (strL "echo")
          [strL "hello"]
          (ExecOutcome.failure none (strL "Command timeout") (strL "st"))) := by
  have h := execution_failure_as_data ctrlDefW (strL "echo") [strL "hello"]
    (strL "s") (strL "i") 0 (strL "exec-1")
    (ExecOutcome.failure none (strL "Command timeout") (strL "st"))
    (by decide) (by decide) (by decide)
  rw [h.1]

/-! ## Claim C9 -/

set_option maxRecDepth 60000 in
/-- Claim C9, counterexample to the claim as stated: repeated
`getExecution` calls for a completed identifier do not all return the
stored record — under the default development policy, of 101 identical
calls at one instant the first 100 answer the record and the 101st is
rejected by the rate-limit gate inside the policy check, even though the
record is still in the store. -/
theorem repeated_getExecution_counterexample :
    (repeatGet st9W (strL "exec-1") (strL "s") (strL "i") 0 101).1
      = List.replicate 100 (LookupResponse.ok rec9W) ++ [LookupResponse.forbidden]
    ∧ jsMapGet (repeatGet st9W (strL "exec-1") (strL "s") (strL "i") 0 101).2.executions
        (strL "exec-1") = some rec9W := by decide

/-- Claim C9 (amended: each call admitted by the policy/rate gate
behaves as claimed; a gate denial answers 403 instead): `getExecution`
never modifies the execution store and, when admitted, returns the
stored record or not-found; an admitted `cancelExecution` removes a
present record (after which the identifier no longer resolves) and
reports not-found, leaving the store unchanged, for an absent one. -/
theorem execution_store_lookup_amended (st : CtrlState)
    (executionId sessionId ipAddress : Str) (now : Nat) :
    (ExecutionController.getExecution st executionId sessionId ipAddress now).2.executions
        = st.executions
    ∧ (∀ r, (PolicyEngine.isActionAllowed st.policies st.rl
          (mkExecCtx sessionId ipAddress executionId now) now).1 = true →
        jsMapGet st.executions executionId = some r →
        (ExecutionController.getExecution st executionId sessionId ipAddress now).1
          = LookupResponse.ok r)
    ∧ ((PolicyEngine.isActionAllowed st.policies st.rl
          (mkExecCtx sessionId ipAddress executionId now) now).1 = true →
        jsMapGet st.executions executionId = none →
        (ExecutionController.getExecution st executionId sessionId ipAddress now).1
          = LookupResponse.notFound)
    ∧ (∀ r, (PolicyEngine.isActionAllowed st.policies st.rl
          (mkExecCtx sessionId ipAddress executionId now) now).1 = true →
        jsMapGet st.executions executionId = some r →
        ExecutionController.cancelExecution st executionId sessionId ipAddress now
          = (CancelResponse.success,
             ⟨jsMapDel st.executions executionId, st.policies,
              (PolicyEngine.isActionAllowed st.policies st.rl
                (mkExecCtx sessionId ipAddress executionId now) now).2⟩))
    ∧ ((PolicyEngine.isActionAllowed st.policies st.rl
          (mkExecCtx sessionId ipAddress executionId now) now).1 = true →
        jsMapGet st.executions executionId = none →
        ExecutionController.cancelExecution st executionId sessionId ipAddress now
          = (CancelResponse.notFound,
             ⟨st.executions, st.policies,
              (PolicyEngine.isActionAllowed st.policies st.rl
                (mkExecCtx sessionId ipAddress executionId now) now).2⟩))
    ∧ jsMapGet (jsMapDel st.executions executionId) executionId = none := by
  refine ⟨?_, ?_, ?_, ?_, ?_, jsMapGet_jsMapDel_self _ _⟩
  · by_cases hg : (PolicyEngine.isActionAllowed st.policies st.rl
        (mkExecCtx sessionId ipAddress executionId now) now).1 = false
    · simp [ExecutionController.getExecution, hg]
    · cases hm : jsMapGet st.executions executionId <;>
        simp [ExecutionController.getExecution, hg, hm]
  · intro r hg hm
    simp [ExecutionController.getExecution, hg, hm]
  · intro hg hm
    simp [ExecutionController.getExecution, hg, hm]
  · intro r hg hm
    simp [ExecutionController.cancelExecution, hg, hm]
  · intro hg hm
    simp [ExecutionController.cancelExecution, hg, hm]

/-- Claim C9, witness: an admitted lookup answers the stored record; an
admitted cancellation removes it. -/
theorem execution_store_lookup_amended_witness :
    (ExecutionController.getExecution st9W (strL "exec-1") (strL "s") (strL "i") 0).1
        = LookupResponse.ok rec9W
    ∧ ExecutionController.cancelExecution st9W (strL "exec-1") (strL "s") (strL "i") 0
        = (CancelResponse.success,
           ⟨jsMapDel st9W.executions (strL "exec-1"), st9W.policies,
            (PolicyEngine.isActionAllowed st9W.policies st9W.rl
              (mkExecCtx (strL "s") (strL "i") (strL "exec-1") 0) 0).2⟩) := by
  have h := execution_store_lookup_amended st9W (strL "exec-1") (strL "s") (strL "i") 0
  exact ⟨h.2.1 rec9W (by decide) (by decide), h.2.2.2.1 rec9W (by decide) (by decide)⟩

/-! ## Claim C10 -/

/-- Claim C10: the rate limiter identifies a requester only through the
concatenation sessionId ++ ":" ++ ipAddress, so any two contexts with
equal concatenations behave identically; in particular session "a" at
address "b:c" and session "a:b" at address "c" share the key "a:b:c",
and with limit 1 a call under the first identity makes the next call
under the second identity denied. -/
theorem rate_limiter_key_collision (c d : PolicyEvaluationContext)
    (st : RLState) (now limit windowMs : Nat) :
    (rlKey c = rlKey d →
      RateLimiter.isAllowed st c now limit windowMs
        = RateLimiter.isAllowed st d now limit windowMs)
    ∧ rlKey ctx10a = rlKey ctx10b
    ∧ (jsMapGet st (rlKey ctx10a) = none →
      (RateLimiter.isAllowed st ctx10a now 1 60000).1 = true
      ∧ (RateLimiter.isAllowed (RateLimiter.isAllowed st ctx10a now 1 60000).2
          ctx10b now 1 60000).1 = false) := by
  refine ⟨?_, by decide, ?_⟩
  · intro h
    unfold RateLimiter.isAllowed
    rw [h]
  · intro h
    have h1 : RateLimiter.isAllowed st ctx10a now 1 60000
        = (true, jsMapSet st (rlKey ctx10a) ⟨1, now + 60000⟩) := by
      unfold RateLimiter.isAllowed RateLimiter.isAllowedKey
      rw [h]
    have hkey : rlKey ctx10b = rlKey ctx10a := by decide
    have h2 : jsMapGet (jsMapSet st (rlKey ctx10a) ⟨1, now + 60000⟩) (rlKey ctx10b)
        = some ⟨1, now + 60000⟩ := by
      rw [hkey]
      exact jsMapGet_jsMapSet_self _ _ _
    refine ⟨by rw [h1], ?_⟩
    rw [h1]
    unfold RateLimiter.isAllowed RateLimiter.isAllowedKey
    rw [h2]
    have hne : ¬ now ≥ now + 60000 := by omega
    simp [hne]

/-- Claim C10, witness: the cross-identity denial from a fresh limiter. -/
theorem rate_limiter_key_collision_witness :
    rlKey ctx10a = rlKey ctx10b
    ∧ (RateLimiter.isAllowed [] ctx10a 0 1 60000).1 = true
    ∧ (RateLimiter.isAllowed (RateLimiter.isAllowed [] ctx10a 0 1 60000).2
        ctx10b 0 1 60000).1 = false := by
  have h := rate_limiter_key_collision ctx10a ctx10b [] 0 1 60000
  exact ⟨h.2.1, (h.2.2 (by decide)).1, (h.2.2 (by decide)).2⟩
